import Mathlib

/-!
Verification development for the Zigbee mesh-routing simulation
(`Zigbee-sim.cc`).  The simulation's orchestration logic is shallowly
embedded here: 16-bit network addresses are modelled as `Nat` (with the
broadcast/unreachable sentinel `FF:FF` as `0xFFFF`), simulation times as
`Nat`, end-to-end delays as `Int` (difference of two times), and the
statistics arithmetic, performed on `double`/`Time` in the source, as
exact rational arithmetic over `ℚ`.  I/O (`std::cout`, `NS_LOG_*`,
`NS_ABORT_MSG`) and the requests issued through the ns-3 scheduler are
modelled as explicit effect values returned by the handler functions.
-/

/-- `NwkStatus::SUCCESS` (the only status value the handlers compare against). -/
def SUCCESS : Nat := 0

/-- The `Mac16Address("FF:FF")` broadcast / unreachable / unassigned sentinel. -/
def broadcastAddr : Nat := 0xFFFF

/-- `const uint32_t MAX_HOPS = 30;` in `TraceRoute`. -/
def MAX_HOPS : Nat := 30

/-- `const int MAX_VISITS_PER_NODE_FOR_LOOP_DETECTION = 3;` in `TraceRoute`
(the loop threshold). -/
def MAX_VISITS_PER_NODE_FOR_LOOP_DETECTION : Nat := 3

/-- The routing environment `TraceRoute` queries: which network addresses have
a stack registered in `zigbeeStacks`, and `FindRoute` of the node with a given
network address (next hop towards a destination; `0xFFFF` = unreachable).
The `neighbor` output flag of `FindRoute` is used by the source only for
printing and is omitted. -/
structure RoutingConfig where
  present : Nat → Bool
  findRoute : Nat → Nat → Nat

/-- How one invocation of `TraceRoute` ends.  `loopDetected node visits hop`
records the node whose visit count reached the threshold, that count, and the
hop number printed with the loop message; `nodeNotFound` is the defensive
"address not in zigbeeStacks" abort; `unreachable` / `reached` are the normal
exits; `maxHopsExceeded` is exit by the `hopCount ≤ MAX_HOPS` bound. -/
inductive TraceOutcome where
  | loopDetected (node visits hop : Nat)
  | nodeNotFound (node hop : Nat)
  | unreachable
  | reached
  | maxHopsExceeded
deriving DecidableEq

/-- The `while` loop of `TraceRoute`.  `gas` counts the remaining iterations
allowed by the `hopCount ≤ MAX_HOPS` conjunct of the loop condition
(invariant: `gas + hopCount = MAX_HOPS + 1`), `visited` is the
`visitedNodeCounts` map (total function with default `0`, matching
`std::map<...,int>::operator[]`).  The returned `Nat` is the number of loop
body iterations executed. -/
def traceGo (cfg : RoutingConfig) (dst : Nat) (gas : Nat) (current : Nat)
    (visited : Nat → Nat) (hopCount : Nat) : TraceOutcome × Nat :=
  match gas with
  | 0 =>
      if current = broadcastAddr then (TraceOutcome.unreachable, 0)
      else if current = dst then (TraceOutcome.reached, 0)
      else (TraceOutcome.maxHopsExceeded, 0)
  | gas' + 1 =>
      if current = broadcastAddr then (TraceOutcome.unreachable, 0)
      else if current = dst then (TraceOutcome.reached, 0)
      else
        let v := visited current + 1
        let visited' := fun a => if a = current then v else visited a
        if MAX_VISITS_PER_NODE_FOR_LOOP_DETECTION ≤ v then
          (TraceOutcome.loopDetected current v hopCount, 1)
        else if cfg.present current = false then
          (TraceOutcome.nodeNotFound current hopCount, 1)
        else
          let nextHopAddr := cfg.findRoute current dst
          let r := traceGo cfg dst gas' nextHopAddr visited' (hopCount + 1)
          (r.1, r.2 + 1)

/-- `TraceRoute(src, dst)`: start at the source with an empty visit map,
`hopCount = 1`, and the `MAX_HOPS` iteration budget. -/
def TraceRoute (cfg : RoutingConfig) (src dst : Nat) : TraceOutcome × Nat :=
  traceGo cfg dst MAX_HOPS src (fun _ => 0) 1

/-- A deliberately cyclic routing table: node `1`'s next hop is `2` and node
`2`'s next hop is `1`, every address has a stack. -/
def cycleConfig : RoutingConfig where
  present := fun _ => true
  findRoute := fun current _ => if current = 1 then 2 else if current = 2 then 1 else broadcastAddr

/-- The shared mutable packet-tracking state of the simulation:
`g_totalPacketsSent`, `g_totalPacketsReceived`, `g_packetCounter`,
`g_sendTimeMap` (packet id → send time, as an association list whose key
order is irrelevant to the operations used) and `g_delayList`. -/
structure SimState where
  totalSent : Nat
  totalReceived : Nat
  packetCounter : Nat
  sendTimeMap : List (Nat × Nat)
  delayList : List Int
deriving DecidableEq

/-- Number of entries of the map with key `k` (0 or 1 for a well-formed
`std::map`). -/
def keyCount (m : List (Nat × Nat)) (k : Nat) : Nat :=
  m.countP (fun q => q.1 == k)

/-- `g_sendTimeMap.find(k)`. -/
def mapFindEntry (m : List (Nat × Nat)) (k : Nat) : Option (Nat × Nat) :=
  m.find? (fun q => q.1 == k)

/-- `g_sendTimeMap.erase(it)` for the iterator returned by `find(k)`: a
`std::map` holds at most one entry per key, so erasing that iterator removes
exactly the entries with key `k`. -/
def mapErase (m : List (Nat × Nat)) (k : Nat) : List (Nat × Nat) :=
  m.filter (fun q => !(q.1 == k))

/-- `g_sendTimeMap[k] = v` (`operator[]`: overwrite if the key exists,
otherwise insert). -/
def mapAssign (m : List (Nat × Nat)) (k v : Nat) : List (Nat × Nat) :=
  if m.any (fun q => q.1 == k) then m.map (fun q => if q.1 == k then (k, v) else q)
  else m ++ [(k, v)]

/-- The four console/log outcomes of `NwkDataIndication`: a matched
reception, a tagged reception whose id has no recorded send time, a
reception tagged with the invalid id `0`, and an untagged reception. -/
inductive RecvLog where
  | receivedOk (id : Nat) (delay : Int)
  | noSendTime (id : Nat)
  | invalidId
  | noTag
deriving DecidableEq

/-- `NwkDataIndication`: `tag` is `some id` when `PeekPacketTag` succeeds
(carrying the tag's packet id) and `none` otherwise; `now` is
`Simulator::Now()`.  Returns the updated global state and the log line
kind emitted. -/
def nwkDataIndication (s : SimState) (tag : Option Nat) (now : Nat) : SimState × RecvLog :=
  match tag with
  | some packetId =>
      if 0 < packetId then
        match mapFindEntry s.sendTimeMap packetId with
        | some entry =>
            let delay : Int := (now : Int) - (entry.2 : Int)
            ({ s with
                delayList := s.delayList ++ [delay]
                totalReceived := s.totalReceived + 1
                sendTimeMap := mapErase s.sendTimeMap packetId },
             RecvLog.receivedOk packetId delay)
        | none => (s, RecvLog.noSendTime packetId)
      else (s, RecvLog.invalidId)
  | none => (s, RecvLog.noTag)

/-- `SendData` at simulated time `now`: increment the sent counter and the
packet counter, tag the packet with the new counter value, and record the
send time under that id. -/
def sendData (s : SimState) (now : Nat) : SimState :=
  let newId := s.packetCounter + 1
  { totalSent := s.totalSent + 1
    totalReceived := s.totalReceived
    packetCounter := newId
    sendTimeMap := mapAssign s.sendTimeMap newId now
    delayList := s.delayList }

/-- The two kinds of scheduled events that mutate the packet-tracking
state: a `SendData` invocation and a data-indication delivery. -/
inductive Event where
  | send (t : Nat)
  | recv (tag : Option Nat) (t : Nat)
deriving DecidableEq

/-- State effect of one event. -/
def step (s : SimState) : Event → SimState
  | Event.send t => sendData s t
  | Event.recv tag t => (nwkDataIndication s tag t).1

/-- Ids inserted into the pending-send map by one event. -/
def stepInserted (s : SimState) : Event → List Nat
  | Event.send _ => [s.packetCounter + 1]
  | Event.recv _ _ => []

/-- Ids removed from the pending-send map by one event. -/
def stepRemoved (s : SimState) : Event → List Nat
  | Event.send _ => []
  | Event.recv tag t =>
      match (nwkDataIndication s tag t).2 with
      | RecvLog.receivedOk id _ => [id]
      | _ => []

/-- Initial values of the globals. -/
def initState : SimState :=
  { totalSent := 0, totalReceived := 0, packetCounter := 0, sendTimeMap := [], delayList := [] }

/-- One event applied to (state, inserted-id log, removed-id log). -/
def stepAll (acc : SimState × List Nat × List Nat) (e : Event) : SimState × List Nat × List Nat :=
  (step acc.1 e, acc.2.1 ++ stepInserted acc.1 e, acc.2.2 ++ stepRemoved acc.1 e)

/-- Replay a whole event sequence, logging insertions and removals. -/
def runLists (es : List Event) : SimState × List Nat × List Nat :=
  es.foldl stepAll (initState, [], [])

/-- The packet-tracking state reached after an event sequence. -/
def run (es : List Event) : SimState :=
  (runLists es).1

/-- All ids inserted into the pending-send map during a run, in order. -/
def insertedIds (es : List Event) : List Nat :=
  (runLists es).2.1

/-- All ids removed from the pending-send map during a run, in order. -/
def removedIds (es : List Event) : List Nat :=
  (runLists es).2.2

/-- Run invariant tying the counters, the pending-send map and the
insertion/removal logs together. -/
structure RunInv (s : SimState) (ins rem : List Nat) : Prop where
  recvLen : s.totalReceived + s.sendTimeMap.length = s.totalSent
  delayLen : s.delayList.length = s.totalReceived
  insCount : ∀ k, ins.count k = if 1 ≤ k ∧ k ≤ s.packetCounter then 1 else 0
  insRem : ∀ k, ins.count k = rem.count k + keyCount s.sendTimeMap k

/-- One entry of `m_netDescList` in a network-discovery confirm. -/
structure NetDescriptor where
  extPanId : Nat
  logCh : Nat
  panId : Nat
  stackProfile : Nat
deriving DecidableEq

/-- Device type set in a `CapabilityInformation` (`ROUTER` / `ENDDEVICE`;
`unspecified` stands for the default-constructed value, which the source
never sends because it sets a type for every node id 1–9). -/
inductive DeviceType where
  | ROUTER
  | ENDDEVICE
  | unspecified
deriving DecidableEq

/-- `zigbee::CapabilityInformation`, restricted to the two fields the source
sets (`SetDeviceType`, `SetAllocateAddrOn`). -/
structure CapabilityInformation where
  deviceType : DeviceType
  allocateAddrOn : Bool
deriving DecidableEq

/-- A default-constructed `CapabilityInformation`: no device type chosen yet,
allocate-address flag not yet set. -/
def capabilityDefault : CapabilityInformation :=
  { deviceType := DeviceType.unspecified, allocateAddrOn := false }

/-- `zigbee::JoiningMethod` (only `ASSOCIATION` is used). -/
inductive JoiningMethod where
  | ASSOCIATION
deriving DecidableEq

/-- The fields of `NlmeJoinRequestParams` the source fills in. -/
structure NlmeJoinRequestParams where
  rejoinNetwork : JoiningMethod
  capabilityInfo : CapabilityInformation
  extendedPanId : Nat
deriving DecidableEq

/-- Observable effects of the bootstrap confirm handlers: console prints,
requests handed to `Simulator::ScheduleNow` (same simulated instant),
`NS_ABORT_MSG` (which terminates the whole run), and an out-of-bounds
`m_netDescList[0]` access (undefined behaviour in the source, reached when
the guard admits an empty list). -/
inductive Effect where
  | printFormationStatus (status : Nat)
  | printNetworksFound (count : Nat)
  | printNetDescriptor (d : NetDescriptor)
  | scheduleNowJoinRequest (p : NlmeJoinRequestParams)
  | abortRun (status : Nat)
  | indexOutOfBounds
  | printJoinSuccess (networkAddress extendedPanId : Nat)
  | scheduleNowStartRouterRequest
  | printJoinFailed (status : Nat)
deriving DecidableEq

/-- `NwkNetworkFormationConfirm`: the body is a single print of the confirm
status, whatever it is. -/
def nwkNetworkFormationConfirm (status : Nat) : List Effect :=
  [Effect.printFormationStatus status]

/-- `NwkNetworkDiscoveryConfirm` for the stack of node `nodeId`: on
`SUCCESS`, print the discovered networks, build a `CapabilityInformation`
(device type `ROUTER` for node ids 1–4, `ENDDEVICE` for 5–9, allocate-address
flag always set) and schedule — at the same simulated instant — one
`NlmeJoinRequest` targeting the extended PAN id of `m_netDescList[0]`
(an out-of-bounds access if the list is empty); on any other status,
`NS_ABORT_MSG`. -/
def nwkNetworkDiscoveryConfirm (nodeId status : Nat) (netDescList : List NetDescriptor) :
    List Effect :=
  if status = SUCCESS then
    let capaInfo : CapabilityInformation :=
      if 1 ≤ nodeId ∧ nodeId ≤ 4 then
        { capabilityDefault with deviceType := DeviceType.ROUTER, allocateAddrOn := true }
      else if 5 ≤ nodeId ∧ nodeId ≤ 9 then
        { capabilityDefault with deviceType := DeviceType.ENDDEVICE, allocateAddrOn := true }
      else
        { capabilityDefault with allocateAddrOn := true }
    Effect.printNetworksFound netDescList.length ::
      netDescList.map Effect.printNetDescriptor ++
        match netDescList[0]? with
        | some d =>
            [Effect.scheduleNowJoinRequest
              { rejoinNetwork := JoiningMethod.ASSOCIATION
                capabilityInfo := capaInfo
                extendedPanId := d.extPanId }]
        | none => [Effect.indexOutOfBounds]
  else
    [Effect.abortRun status]

/-- `NwkJoinConfirm` for the stack of node `nodeId`: on `SUCCESS`, print the
assigned short address and extended PAN id, and — only for node ids 1–4 —
schedule a `NlmeStartRouterRequest` at the same simulated instant; on any
other status, print the failure and do nothing else. -/
def nwkJoinConfirm (nodeId status networkAddress extendedPanId : Nat) : List Effect :=
  if status = SUCCESS then
    Effect.printJoinSuccess networkAddress extendedPanId ::
      (if 1 ≤ nodeId ∧ nodeId ≤ 4 then [Effect.scheduleNowStartRouterRequest] else [])
  else
    [Effect.printJoinFailed status]

/-- The join requests among a handler's effects. -/
def joinRequestsOf (effects : List Effect) : List NlmeJoinRequestParams :=
  effects.filterMap fun e =>
    match e with
    | Effect.scheduleNowJoinRequest p => some p
    | _ => none

/-- The final results block printed by the scheduled statistics lambda in
`main`; `none` models the "N/A" outputs.  The lambda prints
`jitter = sqrt(variance)`; since the square root of a rational is in
general irrational, the embedding carries the variance `jitterVar` (the
square of the reported jitter): the reported jitter is the square root of
this field, taken by the source's final `std::sqrt` step. -/
structure SimResults where
  sent : Nat
  received : Nat
  pdr : Option ℚ
  avgDelay : Option ℚ
  minDelay : Option ℚ
  maxDelay : Option ℚ
  jitterVar : Option ℚ
deriving DecidableEq

/-- The statistics computation of the results lambda: PDR = received/sent
when at least one packet was sent, otherwise "N/A"; with a non-empty delay
list, total/min/max are computed by one pass over the list starting from its
first element, the average is total divided by the list size, and the
variance is the mean of squared deviations from the average; with an empty
delay list, every delay field is "N/A". -/
def computeResults (sent received : Nat) (delays : List ℚ) : SimResults :=
  let pdr : Option ℚ := if 0 < sent then some ((received : ℚ) / (sent : ℚ)) else none
  match delays with
  | [] =>
      { sent := sent
        received := received
        pdr := pdr
        avgDelay := none
        minDelay := none
        maxDelay := none
        jitterVar := none }
  | d0 :: _ =>
      let totalDelay := delays.foldl (· + ·) 0
      let minDelay := delays.foldl (fun m d => if d < m then d else m) d0
      let maxDelay := delays.foldl (fun m d => if m < d then d else m) d0
      let avgDelay := totalDelay / (delays.length : ℚ)
      let sumSquaredDiff :=
        delays.foldl (fun acc d => acc + (d - avgDelay) * (d - avgDelay)) 0
      let variance := sumSquaredDiff / (delays.length : ℚ)
      { sent := sent
        received := received
        pdr := pdr
        avgDelay := some avgDelay
        minDelay := some minDelay
        maxDelay := some maxDelay
        jitterVar := some variance }

theorem traceGo_iterations_le (cfg : RoutingConfig) (dst : Nat) :
    ∀ (gas current : Nat) (visited : Nat → Nat) (hopCount : Nat),
      (traceGo cfg dst gas current visited hopCount).2 ≤ gas := by
  intro gas
  induction gas with
  | zero =>
      intro current visited hopCount
      simp only [traceGo]
      split <;> simp
      split <;> simp
  | succ gas' ih =>
      intro current visited hopCount
      simp only [traceGo]
      split
      · simp
      · split
        · simp
        · split
          · simp
          · split
            · simp
            · have := ih (cfg.findRoute current dst)
                (fun a => if a = current then visited current + 1 else visited a) (hopCount + 1)
              simpa using Nat.succ_le_succ this

/-- Claim C1: for every routing-table configuration the `TraceRoute` loop
terminates in at most `MAX_HOPS` iterations; on the two-node cycle
(1 → 2 → 1) with loop threshold 3 it terminates through the loop-detected
branch after exactly 3 visits to the repeating node, in 5 iterations, before
the `MAX_HOPS` bound is reached. -/
theorem traceRoute_terminates_and_detects_cycle :
    (∀ (cfg : RoutingConfig) (src dst : Nat), (TraceRoute cfg src dst).2 ≤ MAX_HOPS)
    ∧ MAX_VISITS_PER_NODE_FOR_LOOP_DETECTION = 3
    ∧ TraceRoute cycleConfig 1 3 = (TraceOutcome.loopDetected 1 3 5, 5)
    ∧ 5 < MAX_HOPS := by
  refine ⟨fun cfg src dst => traceGo_iterations_le cfg dst MAX_HOPS src (fun _ => 0) 1, rfl, ?_, by decide⟩
  decide

theorem keyCount_cons (q : Nat × Nat) (m : List (Nat × Nat)) (k : Nat) :
    keyCount (q :: m) k = keyCount m k + if q.1 = k then 1 else 0 := by
  simp [keyCount, List.countP_cons]

theorem keyCount_append (m₁ m₂ : List (Nat × Nat)) (k : Nat) :
    keyCount (m₁ ++ m₂) k = keyCount m₁ k + keyCount m₂ k := by
  simp [keyCount, List.countP_append]

theorem mapErase_cons_drop (q : Nat × Nat) (m : List (Nat × Nat)) (i : Nat) (h : q.1 = i) :
    mapErase (q :: m) i = mapErase m i := by
  simp [mapErase, List.filter_cons, h]

theorem mapErase_cons_keep (q : Nat × Nat) (m : List (Nat × Nat)) (i : Nat) (h : ¬ q.1 = i) :
    mapErase (q :: m) i = q :: mapErase m i := by
  simp [mapErase, List.filter_cons, h]

theorem length_mapErase_add (m : List (Nat × Nat)) (k : Nat) :
    (mapErase m k).length + keyCount m k = m.length := by
  induction m with
  | nil => rfl
  | cons q m ih =>
      rw [keyCount_cons]
      by_cases h : q.1 = k
      · rw [mapErase_cons_drop q m k h, if_pos h]
        simp only [List.length_cons]
        omega
      · rw [mapErase_cons_keep q m k h, if_neg h]
        simp only [List.length_cons]
        omega

theorem keyCount_mapErase (m : List (Nat × Nat)) (i k : Nat) :
    keyCount (mapErase m i) k = if k = i then 0 else keyCount m k := by
  induction m with
  | nil =>
      by_cases hki : k = i <;> simp [mapErase, keyCount, hki]
  | cons q m ih =>
      by_cases hqi : q.1 = i
      · rw [mapErase_cons_drop q m i hqi, ih, keyCount_cons]
        by_cases hki : k = i
        · rw [if_pos hki, if_pos hki]
        · rw [if_neg hki, if_neg hki, if_neg (by omega)]
          omega
      · rw [mapErase_cons_keep q m i hqi, keyCount_cons, ih, keyCount_cons]
        by_cases hki : k = i
        · rw [if_pos hki, if_pos hki, if_neg (by omega)]
        · rw [if_neg hki, if_neg hki]

theorem any_eq_false_of_keyCount_eq_zero (m : List (Nat × Nat)) (k : Nat)
    (h : keyCount m k = 0) : m.any (fun q => q.1 == k) = false := by
  rw [List.any_eq_false]
  intro q hq
  have := List.countP_eq_zero.mp h q hq
  simpa using this

theorem mapFindEntry_eq_none_of_keyCount_eq_zero (m : List (Nat × Nat)) (k : Nat)
    (h : keyCount m k = 0) : mapFindEntry m k = none := by
  rw [mapFindEntry, List.find?_eq_none]
  intro q hq
  have := List.countP_eq_zero.mp h q hq
  simpa using this

theorem keyCount_pos_of_mapFindEntry_some (m : List (Nat × Nat)) (k : Nat) (e : Nat × Nat)
    (h : mapFindEntry m k = some e) : 1 ≤ keyCount m k := by
  unfold mapFindEntry at h
  have hp := List.find?_some h
  have hm := List.mem_of_find?_eq_some h
  have hpos : 0 < m.countP (fun q => q.1 == k) := List.countP_pos_iff.mpr ⟨e, hm, hp⟩
  simpa [keyCount] using hpos

theorem mapAssign_eq_append (m : List (Nat × Nat)) (k v : Nat) (h : keyCount m k = 0) :
    mapAssign m k v = m ++ [(k, v)] := by
  rw [mapAssign, any_eq_false_of_keyCount_eq_zero m k h]
  simp

theorem nwkDataIndication_noTag (s : SimState) (now : Nat) :
    nwkDataIndication s none now = (s, RecvLog.noTag) := rfl

theorem nwkDataIndication_invalidId (s : SimState) (now : Nat) :
    nwkDataIndication s (some 0) now = (s, RecvLog.invalidId) := rfl

theorem nwkDataIndication_notFound (s : SimState) (id now : Nat) (hid : 0 < id)
    (h : mapFindEntry s.sendTimeMap id = none) :
    nwkDataIndication s (some id) now = (s, RecvLog.noSendTime id) := by
  simp [nwkDataIndication, hid, h]

theorem nwkDataIndication_found (s : SimState) (id now : Nat) (entry : Nat × Nat) (hid : 0 < id)
    (h : mapFindEntry s.sendTimeMap id = some entry) :
    nwkDataIndication s (some id) now =
      ({ s with
          delayList := s.delayList ++ [(now : Int) - (entry.2 : Int)]
          totalReceived := s.totalReceived + 1
          sendTimeMap := mapErase s.sendTimeMap id },
       RecvLog.receivedOk id ((now : Int) - (entry.2 : Int))) := by
  simp [nwkDataIndication, hid, h]

theorem runInv_step (s : SimState) (ins rem : List Nat) (e : Event)
    (h : RunInv s ins rem) :
    RunInv (step s e) (ins ++ stepInserted s e) (rem ++ stepRemoved s e) := by
  obtain ⟨h1, h2, h3, h4⟩ := h
  cases e with
  | send t =>
      have hins : ins.count (s.packetCounter + 1) = 0 := by
        have := h3 (s.packetCounter + 1)
        rw [if_neg (by omega)] at this
        exact this
      have hkey : keyCount s.sendTimeMap (s.packetCounter + 1) = 0 := by
        have := h4 (s.packetCounter + 1)
        omega
      have hassign := mapAssign_eq_append s.sendTimeMap (s.packetCounter + 1) t hkey
      refine ⟨?_, ?_, ?_, ?_⟩
      · simp only [step, sendData, hassign, List.length_append, List.length_cons,
          List.length_nil]
        omega
      · simpa only [step, sendData] using h2
      · intro k
        simp only [step, stepInserted, sendData]
        rw [List.count_append]
        by_cases hk : k = s.packetCounter + 1
        · subst hk
          rw [if_pos (by omega)]
          simp [hins]
        · have hc0 : List.count k [s.packetCounter + 1] = 0 := by
            simp [List.count_cons, hk]
          rw [hc0]
          have hi := h3 k
          by_cases hc : 1 ≤ k ∧ k ≤ s.packetCounter
          · rw [if_pos hc] at hi
            rw [if_pos (by omega)]
            omega
          · rw [if_neg hc] at hi
            rw [if_neg (by omega)]
            omega
      · intro k
        simp only [step, stepInserted, stepRemoved, sendData, hassign]
        rw [List.count_append, List.count_append, keyCount_append]
        have hsingle : keyCount [(s.packetCounter + 1, t)] k =
            if s.packetCounter + 1 = k then 1 else 0 := by
          simp [keyCount, List.countP_cons]
        rw [hsingle]
        have hr := h4 k
        by_cases hk : k = s.packetCounter + 1
        · subst hk
          have hone : List.count (s.packetCounter + 1) [s.packetCounter + 1] = 1 := by simp
          rw [hone, if_pos rfl]
          simp only [List.count_nil]
          omega
        · have hc0 : List.count k [s.packetCounter + 1] = 0 := by
            simp [List.count_cons, hk]
          rw [hc0, if_neg (by omega)]
          simp only [List.count_nil]
          omega
  | recv tag t =>
      cases tag with
      | none =>
          simp only [step, stepInserted, stepRemoved, nwkDataIndication_noTag]
          exact ⟨h1, h2, by simpa using h3, by simpa using h4⟩
      | some id =>
          by_cases hid : 0 < id
          · cases hfind : mapFindEntry s.sendTimeMap id with
            | none =>
                simp only [step, stepInserted, stepRemoved,
                  nwkDataIndication_notFound s id t hid hfind]
                exact ⟨h1, h2, by simpa using h3, by simpa using h4⟩
            | some entry =>
                have hkpos : 1 ≤ keyCount s.sendTimeMap id :=
                  keyCount_pos_of_mapFindEntry_some s.sendTimeMap id entry hfind
                have hins1 : ins.count id ≤ 1 := by
                  have := h3 id
                  split at this <;> omega
                have hkey1 : keyCount s.sendTimeMap id = 1 := by
                  have := h4 id
                  omega
                have hlen : (mapErase s.sendTimeMap id).length + 1 = s.sendTimeMap.length := by
                  have := length_mapErase_add s.sendTimeMap id
                  omega
                simp only [step, stepInserted, stepRemoved,
                  nwkDataIndication_found s id t entry hid hfind]
                refine ⟨?_, ?_, ?_, ?_⟩
                · simp only
                  omega
                · simp only [List.length_append, List.length_cons, List.length_nil]
                  omega
                · intro k
                  have := h3 k
                  simpa using this
                · intro k
                  rw [List.count_append, List.count_append, keyCount_mapErase]
                  have hr := h4 k
                  by_cases hk : k = id
                  · subst hk
                    have hone : List.count k [k] = 1 := by simp
                    rw [hone, if_pos rfl]
                    simp only [List.count_nil]
                    omega
                  · have hc0 : List.count k [id] = 0 := by
                      simp [List.count_cons, hk]
                    rw [hc0, if_neg hk]
                    simp only [List.count_nil]
                    omega
          · have hz : id = 0 := by omega
            subst hz
            simp only [step, stepInserted, stepRemoved, nwkDataIndication_invalidId]
            exact ⟨h1, h2, by simpa using h3, by simpa using h4⟩

theorem runInv_initial : RunInv initState [] [] := by
  refine ⟨rfl, rfl, ?_, ?_⟩
  · intro k
    rw [if_neg (by simp [initState]; omega)]
    rfl
  · intro k
    rfl

theorem runInv_foldl (es : List Event) :
    ∀ (s : SimState) (ins rem : List Nat), RunInv s ins rem →
      RunInv (es.foldl stepAll (s, ins, rem)).1 (es.foldl stepAll (s, ins, rem)).2.1
        (es.foldl stepAll (s, ins, rem)).2.2 := by
  induction es with
  | nil => intro s ins rem h; exact h
  | cons e es ih =>
      intro s ins rem h
      rw [List.foldl_cons]
      have hstep : stepAll (s, ins, rem) e
          = (step s e, ins ++ stepInserted s e, rem ++ stepRemoved s e) := rfl
      rw [hstep]
      exact ih _ _ _ (runInv_step s ins rem e h)

theorem runInv_run (es : List Event) : RunInv (run es) (insertedIds es) (removedIds es) :=
  runInv_foldl es initState [] [] runInv_initial

/-- Claim C2: after any reachable event history, the received-packet counter
is at most the sent-packet counter, and every id removed from the
pending-send map was previously inserted into it exactly once (removals of
an id never exceed its insertions — this holds for every history, hence for
every prefix of a run — and no id is ever inserted more than once; an id
with a removal therefore has exactly one insertion). -/
theorem counters_and_pending_table_invariant (es : List Event) (id : Nat) :
    (run es).totalReceived ≤ (run es).totalSent
    ∧ (removedIds es).count id ≤ (insertedIds es).count id
    ∧ (insertedIds es).count id ≤ 1
    ∧ (1 ≤ (removedIds es).count id → (insertedIds es).count id = 1) := by
  obtain ⟨h1, h2, h3, h4⟩ := runInv_run es
  have hi := h3 id
  have hr := h4 id
  refine ⟨by omega, by omega, ?_, ?_⟩
  · split at hi <;> omega
  · intro hrem
    split at hi <;> omega

/-- Witness for C2 on a concrete run: one send followed by its matching
reception; id 1 has a removal and exactly one insertion. -/
theorem counters_and_pending_table_invariant_witness :
    1 ≤ (removedIds [Event.send 0, Event.recv (some 1) 2]).count 1
    ∧ (insertedIds [Event.send 0, Event.recv (some 1) 2]).count 1 = 1 :=
  ⟨by decide,
   (counters_and_pending_table_invariant [Event.send 0, Event.recv (some 1) 2] 1).2.2.2
     (by decide)⟩

/-- Claim C10: the received-packet counter is incremented at most once per
packet id (each increment removes the id from the pending-send map), and
once an id has been matched, a further reception carrying it takes the
not-found branch: it leaves the whole packet-tracking state — in particular
the received counter and the delay list — unchanged and only logs a
"no send time" warning. -/
theorem received_at_most_once_per_id (es : List Event) (id t : Nat) :
    (removedIds es).count id ≤ 1
    ∧ (1 ≤ (removedIds es).count id →
        nwkDataIndication (run es) (some id) t = (run es, RecvLog.noSendTime id)) := by
  obtain ⟨h1, h2, h3, h4⟩ := runInv_run es
  have hi := h3 id
  have hr := h4 id
  constructor
  · split at hi <;> omega
  · intro hrem
    by_cases hc : 1 ≤ id ∧ id ≤ (run es).packetCounter
    · rw [if_pos hc] at hi
      have hkey : keyCount (run es).sendTimeMap id = 0 := by omega
      have hid : 0 < id := by omega
      exact nwkDataIndication_notFound (run es) id t hid
        (mapFindEntry_eq_none_of_keyCount_eq_zero _ id hkey)
    · rw [if_neg hc] at hi
      omega

/-- Witness for C10 on a concrete run: after id 1 has been matched once, a
duplicate reception of id 1 changes nothing and logs "no send time". -/
theorem received_at_most_once_per_id_witness :
    1 ≤ (removedIds [Event.send 0, Event.recv (some 1) 3]).count 1
    ∧ nwkDataIndication (run [Event.send 0, Event.recv (some 1) 3]) (some 1) 7
        = (run [Event.send 0, Event.recv (some 1) 3], RecvLog.noSendTime 1) :=
  ⟨by decide,
   (received_at_most_once_per_id [Event.send 0, Event.recv (some 1) 3] 1 7).2 (by decide)⟩

theorem joinRequestsOf_discovery_aux (n : Nat) (l : List NetDescriptor) (tail : List Effect) :
    joinRequestsOf (Effect.printNetworksFound n :: l.map Effect.printNetDescriptor ++ tail)
      = joinRequestsOf tail := by
  induction l with
  | nil => simp [joinRequestsOf, List.filterMap_cons]
  | cons d l ih =>
      simp only [joinRequestsOf, List.filterMap_cons] at ih ⊢
      exact ih

theorem joinRequestsOf_single (p : NlmeJoinRequestParams) :
    joinRequestsOf [Effect.scheduleNowJoinRequest p] = [p] := rfl

theorem nwkNetworkDiscoveryConfirm_success_cons (nodeId : Nat) (d : NetDescriptor)
    (rest : List NetDescriptor) :
    nwkNetworkDiscoveryConfirm nodeId SUCCESS (d :: rest)
      = Effect.printNetworksFound (d :: rest).length ::
          (d :: rest).map Effect.printNetDescriptor ++
          [Effect.scheduleNowJoinRequest
            { rejoinNetwork := JoiningMethod.ASSOCIATION
              capabilityInfo :=
                if 1 ≤ nodeId ∧ nodeId ≤ 4 then
                  { deviceType := DeviceType.ROUTER, allocateAddrOn := true }
                else if 5 ≤ nodeId ∧ nodeId ≤ 9 then
                  { deviceType := DeviceType.ENDDEVICE, allocateAddrOn := true }
                else { deviceType := DeviceType.unspecified, allocateAddrOn := true }
              extendedPanId := d.extPanId }] := by
  simp [nwkNetworkDiscoveryConfirm, capabilityDefault, SUCCESS]

/-- Counterexample for C3: at a failing formation-confirm status (1), the
handler's only effect is printing the status; it performs no abort, so the
run does not terminate there. -/
theorem formationConfirm_failure_does_not_abort_cex :
    nwkNetworkFormationConfirm 1 = [Effect.printFormationStatus 1]
    ∧ Effect.abortRun 1 ∉ nwkNetworkFormationConfirm 1 := by
  decide

/-- Claim C3 (amended): the network-formation confirm handler only prints the
confirm status — for a failure status as well as for success — and never
aborts the run. -/
theorem formationConfirm_only_logs (status : Nat) :
    nwkNetworkFormationConfirm status = [Effect.printFormationStatus status]
    ∧ Effect.abortRun status ∉ nwkNetworkFormationConfirm status := by
  refine ⟨rfl, ?_⟩
  intro hmem
  simp [nwkNetworkFormationConfirm] at hmem

/-- Counterexample for C4: on an orphan reception (id 5 absent from the
pending-send table), on a zero-id reception and on an untagged reception,
the handler leaves the entire packet-tracking state unchanged — there is no
orphan-reception counter (nor any other dedicated counter) to increment; each
case only emits its own distinct warning. -/
theorem dataIndication_anomalies_no_counters_cex :
    nwkDataIndication ⟨1, 0, 1, [], []⟩ (some 5) 10 = (⟨1, 0, 1, [], []⟩, RecvLog.noSendTime 5)
    ∧ nwkDataIndication ⟨1, 0, 1, [], []⟩ (some 0) 10 = (⟨1, 0, 1, [], []⟩, RecvLog.invalidId)
    ∧ nwkDataIndication ⟨1, 0, 1, [], []⟩ none 10 = (⟨1, 0, 1, [], []⟩, RecvLog.noTag) := by
  decide

/-- Claim C4 (amended): the three anomalous reception cases — untagged
packet, identifier 0, and identifier not found in the pending-send table —
each produce their own distinct warning log and leave the whole
packet-tracking state (counters, pending-send table, delay list) unchanged;
in particular the received-packet counter is not incremented in any of the
three cases, and no dedicated anomaly counter exists. -/
theorem dataIndication_anomalies_log_only (s : SimState) (tag : Option Nat) (now : Nat) :
    (tag = none → nwkDataIndication s tag now = (s, RecvLog.noTag))
    ∧ (tag = some 0 → nwkDataIndication s tag now = (s, RecvLog.invalidId))
    ∧ (∀ id, tag = some id → 0 < id → mapFindEntry s.sendTimeMap id = none →
        nwkDataIndication s tag now = (s, RecvLog.noSendTime id)) := by
  refine ⟨?_, ?_, ?_⟩
  · intro h
    subst h
    rfl
  · intro h
    subst h
    rfl
  · intro id h hid hfind
    subst h
    exact nwkDataIndication_notFound s id now hid hfind

/-- Witness for the amended C4 at concrete inputs. -/
theorem dataIndication_anomalies_log_only_witness :
    nwkDataIndication initState none 4 = (initState, RecvLog.noTag)
    ∧ nwkDataIndication initState (some 0) 4 = (initState, RecvLog.invalidId)
    ∧ nwkDataIndication initState (some 3) 4 = (initState, RecvLog.noSendTime 3) :=
  ⟨(dataIndication_anomalies_log_only initState none 4).1 rfl,
   (dataIndication_anomalies_log_only initState (some 0) 4).2.1 rfl,
   (dataIndication_anomalies_log_only initState (some 3) 4).2.2 3 rfl (by decide) rfl⟩

/-- Counterexample for C5: a discovery confirm with status success but an
empty descriptor list still reaches the `m_netDescList[0]` read, out of
bounds — the access is guarded only by the status check. -/
theorem discoveryConfirm_empty_list_out_of_bounds_cex :
    Effect.indexOutOfBounds ∈ nwkNetworkDiscoveryConfirm 1 SUCCESS []
    ∧ nwkNetworkDiscoveryConfirm 1 SUCCESS []
        = [Effect.printNetworksFound 0, Effect.indexOutOfBounds] := by
  decide

/-- Claim C5 (amended): for every discovery confirm with status success and a
non-empty descriptor list, the read of the first descriptor is within
bounds (no out-of-bounds access occurs); the handler has no separate guard
against an empty list. -/
theorem discoveryConfirm_nonempty_inbounds (nodeId status : Nat) (l : List NetDescriptor)
    (hs : status = SUCCESS) (hne : l ≠ []) :
    Effect.indexOutOfBounds ∉ nwkNetworkDiscoveryConfirm nodeId status l := by
  subst hs
  cases l with
  | nil => exact absurd rfl hne
  | cons d rest =>
      intro hmem
      rw [nwkNetworkDiscoveryConfirm_success_cons] at hmem
      simp at hmem

/-- Witness for the amended C5 at a concrete input. -/
theorem discoveryConfirm_nonempty_inbounds_witness :
    ([({ extPanId := 51966, logCh := 11, panId := 1, stackProfile := 2 } : NetDescriptor)] ≠ [])
    ∧ Effect.indexOutOfBounds ∉
        nwkNetworkDiscoveryConfirm 1 SUCCESS
          [{ extPanId := 51966, logCh := 11, panId := 1, stackProfile := 2 }] :=
  ⟨by decide,
   discoveryConfirm_nonempty_inbounds 1 SUCCESS
     [{ extPanId := 51966, logCh := 11, panId := 1, stackProfile := 2 }] rfl (by decide)⟩

/-- Claim C6: a discovery confirm with any status other than success makes
the handler abort the run (`NS_ABORT_MSG`) with the status in the
diagnostic, and no join request is issued. -/
theorem discoveryConfirm_failure_aborts_no_join
    (nodeId status : Nat) (netDescList : List NetDescriptor) (hs : status ≠ SUCCESS) :
    nwkNetworkDiscoveryConfirm nodeId status netDescList = [Effect.abortRun status]
    ∧ joinRequestsOf (nwkNetworkDiscoveryConfirm nodeId status netDescList) = [] := by
  have habort : nwkNetworkDiscoveryConfirm nodeId status netDescList
      = [Effect.abortRun status] := by
    simp only [nwkNetworkDiscoveryConfirm]
    rw [if_neg hs]
  refine ⟨habort, ?_⟩
  rw [habort]
  rfl

/-- Witness for C6 at a concrete failing status. -/
theorem discoveryConfirm_failure_aborts_no_join_witness :
    (1 : Nat) ≠ SUCCESS
    ∧ nwkNetworkDiscoveryConfirm 3 1 [] = [Effect.abortRun 1]
    ∧ joinRequestsOf (nwkNetworkDiscoveryConfirm 3 1 []) = [] :=
  ⟨by decide,
   (discoveryConfirm_failure_aborts_no_join 3 1 [] (by decide)).1,
   (discoveryConfirm_failure_aborts_no_join 3 1 [] (by decide)).2⟩

/-- Claim C7: a discovery confirm with status success and a non-empty
descriptor list makes the handler schedule — at the same simulated instant —
exactly one join request, targeting the extended PAN id of the first
descriptor, joining by association, with the allocate-address flag set and
the device type matching the node's configured role (`ROUTER` for router
nodes 1–4, `ENDDEVICE` for end-device nodes 5–9). -/
theorem discoveryConfirm_success_issues_single_join
    (nodeId status : Nat) (d : NetDescriptor) (rest : List NetDescriptor)
    (hs : status = SUCCESS) (hlo : 1 ≤ nodeId) (hhi : nodeId ≤ 9) :
    joinRequestsOf (nwkNetworkDiscoveryConfirm nodeId status (d :: rest)) =
      [{ rejoinNetwork := JoiningMethod.ASSOCIATION
         capabilityInfo :=
           { deviceType := if nodeId ≤ 4 then DeviceType.ROUTER else DeviceType.ENDDEVICE
             allocateAddrOn := true }
         extendedPanId := d.extPanId }] := by
  subst hs
  rw [nwkNetworkDiscoveryConfirm_success_cons, joinRequestsOf_discovery_aux,
    joinRequestsOf_single]
  by_cases h4 : nodeId ≤ 4
  · rw [if_pos ⟨hlo, h4⟩, if_pos h4]
  · rw [if_neg (fun hc => h4 hc.2), if_pos ⟨by omega, hhi⟩, if_neg h4]

/-- Witness for C7 at concrete inputs: a router node (2) and an end-device
node (7). -/
theorem discoveryConfirm_success_issues_single_join_witness :
    joinRequestsOf (nwkNetworkDiscoveryConfirm 2 SUCCESS
        [{ extPanId := 51966, logCh := 11, panId := 1, stackProfile := 2 }])
      = [{ rejoinNetwork := JoiningMethod.ASSOCIATION
           capabilityInfo := { deviceType := DeviceType.ROUTER, allocateAddrOn := true }
           extendedPanId := 51966 }]
    ∧ joinRequestsOf (nwkNetworkDiscoveryConfirm 7 SUCCESS
        [{ extPanId := 51966, logCh := 11, panId := 1, stackProfile := 2 }])
      = [{ rejoinNetwork := JoiningMethod.ASSOCIATION
           capabilityInfo := { deviceType := DeviceType.ENDDEVICE, allocateAddrOn := true }
           extendedPanId := 51966 }] :=
  ⟨by
    have h := discoveryConfirm_success_issues_single_join 2 SUCCESS
      { extPanId := 51966, logCh := 11, panId := 1, stackProfile := 2 } [] rfl
      (by decide) (by decide)
    simpa using h,
   by
    have h := discoveryConfirm_success_issues_single_join 7 SUCCESS
      { extPanId := 51966, logCh := 11, panId := 1, stackProfile := 2 } [] rfl
      (by decide) (by decide)
    simpa using h⟩

/-- Claim C8: on a join confirm with status success, a node with id 1–4
(a Router) schedules a start-as-router request at the same simulated
instant, while a node with id ≥ 5 (an End Device) issues no start-router
request; on any failing status the handler only prints the failure — no
retry, no escalation, no further request. -/
theorem joinConfirm_router_start_and_failure_log
    (nodeId status networkAddress extendedPanId : Nat) :
    (status = SUCCESS → 1 ≤ nodeId → nodeId ≤ 4 →
      nwkJoinConfirm nodeId status networkAddress extendedPanId
        = [Effect.printJoinSuccess networkAddress extendedPanId,
           Effect.scheduleNowStartRouterRequest])
    ∧ (status = SUCCESS → 5 ≤ nodeId →
      nwkJoinConfirm nodeId status networkAddress extendedPanId
        = [Effect.printJoinSuccess networkAddress extendedPanId])
    ∧ (status ≠ SUCCESS →
      nwkJoinConfirm nodeId status networkAddress extendedPanId
        = [Effect.printJoinFailed status]) := by
  refine ⟨?_, ?_, ?_⟩
  · intro hs h1 h4
    subst hs
    simp [nwkJoinConfirm, h1, h4]
  · intro hs h5
    subst hs
    simp [nwkJoinConfirm, show ¬(1 ≤ nodeId ∧ nodeId ≤ 4) from by omega]
  · intro hs
    simp [nwkJoinConfirm, hs]

/-- Witness for C8 at concrete inputs: router node 2 (success), end-device
node 7 (success), and node 3 with a failing status. -/
theorem joinConfirm_router_start_and_failure_log_witness :
    (0 : Nat) = SUCCESS
    ∧ nwkJoinConfirm 2 0 7 9
        = [Effect.printJoinSuccess 7 9, Effect.scheduleNowStartRouterRequest]
    ∧ nwkJoinConfirm 7 0 7 9 = [Effect.printJoinSuccess 7 9]
    ∧ (1 : Nat) ≠ SUCCESS
    ∧ nwkJoinConfirm 3 1 7 9 = [Effect.printJoinFailed 1] :=
  ⟨rfl,
   (joinConfirm_router_start_and_failure_log 2 0 7 9).1 rfl (by decide) (by decide),
   (joinConfirm_router_start_and_failure_log 7 0 7 9).2.1 rfl (by decide),
   by decide,
   (joinConfirm_router_start_and_failure_log 3 1 7 9).2.2 (by decide)⟩

theorem foldl_add_eq (l : List ℚ) (a : ℚ) : l.foldl (· + ·) a = a + l.sum := by
  induction l generalizing a with
  | nil => simp
  | cons d l ih =>
      rw [List.foldl_cons, ih, List.sum_cons]
      ring

theorem foldl_add_map (f : ℚ → ℚ) (l : List ℚ) (a : ℚ) :
    l.foldl (fun acc d => acc + f d) a = a + (l.map f).sum := by
  induction l generalizing a with
  | nil => simp
  | cons d l ih =>
      rw [List.foldl_cons, ih, List.map_cons, List.sum_cons]
      ring

theorem foldl_min_code (l : List ℚ) (a : ℚ) :
    l.foldl (fun m d => if d < m then d else m) a = l.foldl min a := by
  induction l generalizing a with
  | nil => rfl
  | cons d l ih =>
      have harg : (if d < a then d else a) = min a d := by
        by_cases h : d < a
        · rw [if_pos h, min_eq_right h.le]
        · rw [if_neg h, min_eq_left (not_lt.mp h)]
      simp only [List.foldl_cons]
      rw [harg, ih]

theorem foldl_max_code (l : List ℚ) (a : ℚ) :
    l.foldl (fun m d => if m < d then d else m) a = l.foldl max a := by
  induction l generalizing a with
  | nil => rfl
  | cons d l ih =>
      have harg : (if a < d then d else a) = max a d := by
        by_cases h : a < d
        · rw [if_pos h, max_eq_right h.le]
        · rw [if_neg h, max_eq_left (not_lt.mp h)]
      simp only [List.foldl_cons]
      rw [harg, ih]

/-- Claim C9: the final statistics report PDR = received/sent exactly when
sent > 0 and "N/A" when sent = 0; with a non-empty delay sample set the
average is the arithmetic mean, min/max are the extrema, and the variance
under the reported jitter's square root is the mean of squared deviations
from the mean delay; with an empty delay sample set, the average, minimum,
maximum and jitter fields are all "N/A" rather than zero. -/
theorem computeResults_spec (sent received : Nat) (delays : List ℚ) :
    (computeResults sent received delays).sent = sent
    ∧ (computeResults sent received delays).received = received
    ∧ (computeResults sent received delays).pdr
        = (if 0 < sent then some ((received : ℚ) / (sent : ℚ)) else none)
    ∧ (computeResults sent received delays).minDelay = delays.min?
    ∧ (computeResults sent received delays).maxDelay = delays.max?
    ∧ (computeResults sent received delays).avgDelay
        = (if delays.isEmpty then none else some (delays.sum / (delays.length : ℚ)))
    ∧ (computeResults sent received delays).jitterVar
        = (if delays.isEmpty then none
           else some ((delays.map fun d =>
              (d - delays.sum / (delays.length : ℚ)) ^ 2).sum / (delays.length : ℚ))) := by
  cases delays with
  | nil => exact ⟨rfl, rfl, rfl, rfl, rfl, rfl, rfl⟩
  | cons d0 ds =>
      simp only [computeResults]
      refine ⟨trivial, trivial, trivial, ?_, ?_, ?_, ?_⟩
      · rw [foldl_min_code]
        rw [show List.foldl min d0 (d0 :: ds) = List.foldl min d0 ds from by
          simp [List.foldl_cons]]
        rfl
      · rw [foldl_max_code]
        rw [show List.foldl max d0 (d0 :: ds) = List.foldl max d0 ds from by
          simp [List.foldl_cons]]
        rfl
      · rw [foldl_add_eq]
        simp [List.isEmpty_cons]
      · have hquad := foldl_add_map
          (fun d => (d - List.foldl (· + ·) 0 (d0 :: ds) / ((d0 :: ds).length : ℚ))
            * (d - List.foldl (· + ·) 0 (d0 :: ds) / ((d0 :: ds).length : ℚ)))
          (d0 :: ds) 0
        rw [hquad, foldl_add_eq]
        simp [List.isEmpty_cons, pow_two]
